import Mathlib

/-!
Verification of the image-difference decision pipeline of the `car` repository.

The repository consists of near-duplicate Flask services (`ishu.py`,
`scratchfabric.py`, `scooterscratch.py`, `scooterscratchfabric.py`,
`ika.py`, `john.py`, `scooterfabric.py`).  The algorithmic core compares a
newly uploaded vehicle photograph against a previously stored one and decides
whether a meaningful visual change ("scratch") is present.

Shallow-embedding conventions used throughout this file:

* Images (`numpy`/OpenCV matrices of `uint8`) are modelled as `Mat`: a pair of
  dimensions plus a total pixel accessor `ℕ → ℕ → ℕ`.
* OpenCV primitives that the decisions of the claims depend on
  (`cv2.absdiff`, `cv2.normalize` with `NORM_MINMAX`, `cv2.equalizeHist`,
  `cv2.GaussianBlur` with `sigma = 0` and its fixed small-kernel taps,
  `cv2.Canny` as a Sobel-gradient double-threshold detector with hysteresis,
  `cv2.morphologyEx MORPH_CLOSE`, `cv2.findContours RETR_EXTERNAL`) are given
  executable definitions below, faithful to the operation each performs.
* OpenCV collaborators whose internals no claim depends on — `cv2.resize`,
  CLAHE, BGR→grayscale conversion, `cv2.contourArea` and `cv2.boundingRect`
  as per-contour attribute extractors — are passed in as an explicit record
  of deterministic functions (`CvExt`) and universally quantified over, since
  every claim holds for an arbitrary choice of these transforms.
* ORB descriptors are binary strings, modelled as `List Bool`; the
  brute-force Hamming matcher with `crossCheck=True` is modelled as
  mutual-nearest-neighbour matching with first-index tie-breaking, exactly
  the semantics of OpenCV's cross-check.
* Remote fetch plus decode of an image source is modelled by `Fetched`:
  the fetch can raise (`fetchError`), the bytes can fail to decode
  (`decodeFail`), or a decoded image is produced (`ok`).
-/

namespace CarRepo

/-! ## Feature matching (`compare_images_for_similarity`, scooterscratch.py 77-94) -/

/-- An ORB descriptor: a fixed-length binary string (OpenCV: 256 bits). -/
abbrev Desc := List Bool

/-- Default descriptor used for out-of-range list access. -/
def d0 : Desc := []

/-- Hamming distance between two binary descriptors (`cv2.NORM_HAMMING`). -/
def hamming (a b : Desc) : ℕ :=
  (List.zipWith (fun x y => x != y) a b).count true

/-- Index of the first element attaining the minimum of a list
(the tie-breaking used by OpenCV's brute-force matcher). -/
def firstMinIdx : List ℕ → ℕ
  | [] => 0
  | [_] => 0
  | x :: y :: t =>
    if x ≤ (y :: t).getD (firstMinIdx (y :: t)) 0 then 0 else firstMinIdx (y :: t) + 1

/-- Nearest-neighbour index of query descriptor `q` in the train set. -/
def nn (q : Desc) (train : List Desc) : ℕ :=
  firstMinIdx (train.map (hamming q))

/-- Query index `i` survives OpenCV's `crossCheck=True`: the nearest train
descriptor of `des1[i]` has `i` as its own nearest query descriptor. -/
def crossMatched (des1 des2 : List Desc) (i : ℕ) : Bool :=
  nn (des2.getD (nn (des1.getD i d0) des2) d0) des1 == i

/-- Number of matches returned by `bf.match(des1, des2)` with cross-check. -/
def matchCount (des1 des2 : List Desc) : ℕ :=
  ((Finset.range des1.length).filter (fun i => crossMatched des1 des2 i = true)).card

/-- The `similarity_score` local of `compare_images_for_similarity`:
matches divided by the larger keypoint count. -/
def similarity_score (des1 des2 : List Desc) : ℚ :=
  (matchCount des1 des2 : ℚ) / (max des1.length des2.length : ℚ)

/-- scooterscratch.py 77-94.  ORB yields `des = None` exactly when an image
has no keypoints, modelled as the empty descriptor list; the keypoint count
equals the descriptor count. -/
def compare_images_for_similarity (des1 des2 : List Desc) : Bool :=
  if des1.isEmpty || des2.isEmpty then false
  else decide ((matchCount des1 des2 : ℚ) / (max des1.length des2.length : ℚ) > 7/10)

/-! ### Basic lemmas about the matcher -/

theorem firstMinIdx_lt : ∀ l : List ℕ, l ≠ [] → firstMinIdx l < l.length := by
  intro l hl
  induction l with
  | nil => exact absurd rfl hl
  | cons x t ih =>
    cases t with
    | nil => simp [firstMinIdx]
    | cons y s =>
      rw [firstMinIdx]
      split
      · simp
      · have := ih (by simp)
        simpa [Nat.succ_lt_succ_iff] using this

theorem firstMinIdx_min : ∀ (l : List ℕ) (k : ℕ), k < l.length →
    l.getD (firstMinIdx l) 0 ≤ l.getD k 0 := by
  intro l
  induction l with
  | nil => intro k hk; simp at hk
  | cons x t ih =>
    intro k hk
    cases t with
    | nil =>
      have hk0 : k = 0 := by
        simp only [List.length_cons, List.length_nil] at hk
        omega
      subst hk0
      simp [firstMinIdx]
    | cons y s =>
      rw [firstMinIdx]
      split
      · rename_i hle
        cases k with
        | zero => simp
        | succ j =>
          have hj : j < (y :: s).length := by
            simpa [Nat.succ_lt_succ_iff] using hk
          have h2 := ih j hj
          have : (x :: y :: s).getD 0 0 = x := rfl
          rw [this]
          calc x ≤ (y :: s).getD (firstMinIdx (y :: s)) 0 := hle
            _ ≤ (y :: s).getD j 0 := h2
            _ = (x :: y :: s).getD (j + 1) 0 := rfl
      · rename_i hgt
        push_neg at hgt
        cases k with
        | zero =>
          have : (x :: y :: s).getD (firstMinIdx (y :: s) + 1) 0
              = (y :: s).getD (firstMinIdx (y :: s)) 0 := rfl
          rw [this]
          exact le_of_lt hgt
        | succ j =>
          have hj : j < (y :: s).length := by
            simpa [Nat.succ_lt_succ_iff] using hk
          simpa using ih j hj

theorem hamming_cons (x y : Bool) (t s : Desc) :
    hamming (x :: t) (y :: s) = hamming t s + if (x != y) = true then 1 else 0 := by
  simp [hamming, List.zipWith, List.count_cons]

theorem hamming_self (a : Desc) : hamming a a = 0 := by
  induction a with
  | nil => rfl
  | cons x t ih =>
    rw [hamming_cons, ih]
    simp

theorem hamming_eq_zero_iff : ∀ a b : Desc, a.length = b.length →
    (hamming a b = 0 ↔ a = b) := by
  intro a
  induction a with
  | nil =>
    intro b hlen
    cases b with
    | nil => simp [hamming]
    | cons y s => simp at hlen
  | cons x t ih =>
    intro b hlen
    cases b with
    | nil => simp at hlen
    | cons y s =>
      have hlen' : t.length = s.length := by simpa using hlen
      rw [hamming_cons]
      constructor
      · intro h
        by_cases hxy : (x != y) = true
        · rw [if_pos hxy] at h
          omega
        · rw [if_neg hxy] at h
          have hx : x = y := by
            cases x <;> cases y <;> simp_all
          have ht : t = s := (ih s hlen').mp (by omega)
          rw [hx, ht]
      · intro h
        cases h
        rw [if_neg (by simp)]
        simpa using hamming_self t

theorem nn_lt (q : Desc) (train : List Desc) (h : train ≠ []) :
    nn q train < train.length := by
  have hm : train.map (hamming q) ≠ [] := by simpa using h
  simpa using firstMinIdx_lt _ hm

theorem crossMatched_eq (des1 des2 : List Desc) (i : ℕ) :
    crossMatched des1 des2 i = true ↔
      nn (des2.getD (nn (des1.getD i d0) des2) d0) des1 = i := by
  simp [crossMatched]

/-- Cross-checked match counts are symmetric in the two descriptor sets:
mutual-nearest-neighbour pairs are the same pairs viewed from either side. -/
theorem matchCount_comm (des1 des2 : List Desc) (h1 : des1 ≠ []) (h2 : des2 ≠ []) :
    matchCount des1 des2 = matchCount des2 des1 := by
  unfold matchCount
  apply Finset.card_nbij' (fun i => nn (des1.getD i d0) des2)
    (fun j => nn (des2.getD j d0) des1)
  · intro a ha
    rw [Finset.mem_filter, Finset.mem_range] at ha
    obtain ⟨_, hm⟩ := ha
    rw [crossMatched_eq] at hm
    rw [Finset.mem_filter, Finset.mem_range]
    refine ⟨nn_lt _ _ h2, ?_⟩
    rw [crossMatched_eq, hm]
  · intro b hb
    rw [Finset.mem_filter, Finset.mem_range] at hb
    obtain ⟨_, hm⟩ := hb
    rw [crossMatched_eq] at hm
    rw [Finset.mem_filter, Finset.mem_range]
    refine ⟨nn_lt _ _ h1, ?_⟩
    rw [crossMatched_eq, hm]
  · intro a ha
    rw [Finset.mem_filter] at ha
    exact (crossMatched_eq _ _ _).mp ha.2
  · intro b hb
    rw [Finset.mem_filter] at hb
    exact (crossMatched_eq _ _ _).mp hb.2

/-- With pairwise-distinct equal-length descriptors, every descriptor's
nearest neighbour in the set itself is its own position. -/
theorem nn_self_eq (d : List Desc) (i : ℕ) (hi : i < d.length)
    (hdist : ∀ i j, i < d.length → j < d.length → i ≠ j → d.getD i d0 ≠ d.getD j d0)
    (hlen : ∀ a ∈ d, ∀ b ∈ d, a.length = b.length) :
    nn (d.getD i d0) d = i := by
  have hne : d ≠ [] := by
    intro h
    rw [h] at hi
    simp at hi
  set q := d.getD i d0 with hq
  set L := d.map (hamming q) with hL
  have hLlen : L.length = d.length := by simp [hL]
  have hLne : L ≠ [] := by
    simp only [hL, ne_eq, List.map_eq_nil_iff]
    exact hne
  have hk : firstMinIdx L < d.length := by
    have := firstMinIdx_lt L hLne
    omega
  set k := firstMinIdx L with hkdef
  have hgetL : ∀ j, j < d.length → L.getD j 0 = hamming q (d.getD j d0) := by
    intro j hj
    rw [List.getD_eq_getElem L 0 (by omega), List.getD_eq_getElem d d0 hj]
    simp [hL]
  have hLi : L.getD i 0 = 0 := by
    rw [hgetL i hi, hq]
    exact hamming_self _
  have hLk : L.getD k 0 = 0 := by
    have h5 := firstMinIdx_min L i (by omega)
    rw [hLi] at h5
    rw [hkdef]
    omega
  by_contra hki
  have hdk : hamming q (d.getD k d0) = 0 := by
    rw [← hgetL k hk]
    exact hLk
  have hmemi : d.getD i d0 ∈ d := by
    rw [List.getD_eq_getElem d d0 hi]
    exact List.getElem_mem hi
  have hmemk : d.getD k d0 ∈ d := by
    rw [List.getD_eq_getElem d d0 hk]
    exact List.getElem_mem hk
  have heq : q = d.getD k d0 :=
    (hamming_eq_zero_iff _ _ (hlen _ hmemi _ hmemk)).mp hdk
  exact hdist i k hi hk (fun h => hki (h ▸ rfl)) heq

/-- On identical descriptor sets with pairwise-distinct equal-length
descriptors, every query survives the cross-check. -/
theorem matchCount_self (d : List Desc)
    (hdist : ∀ i j, i < d.length → j < d.length → i ≠ j → d.getD i d0 ≠ d.getD j d0)
    (hlen : ∀ a ∈ d, ∀ b ∈ d, a.length = b.length) :
    matchCount d d = d.length := by
  unfold matchCount
  rw [Finset.filter_true_of_mem, Finset.card_range]
  intro i hi
  rw [Finset.mem_range] at hi
  rw [crossMatched_eq, nn_self_eq d i hi hdist hlen]
  exact nn_self_eq d i hi hdist hlen

/-! ## Pixel images and the OpenCV primitives of the contour pipelines -/

/-- A decoded image: dimensions plus a total pixel accessor (uint8 values). -/
structure Mat where
  rows : ℕ
  cols : ℕ
  px : ℕ → ℕ → ℕ

/-- Every pixel of the image is zero. -/
def Zmat (m : Mat) : Prop := ∀ i j, m.px i j = 0

/-- `cv2.absdiff`: per-pixel absolute difference. -/
def absdiff (a b : Mat) : Mat :=
  ⟨a.rows, a.cols, fun i j => max (a.px i j) (b.px i j) - min (a.px i j) (b.px i j)⟩

/-- The in-bounds pixel values of an image, row-major. -/
def Mat.entries (m : Mat) : List ℕ :=
  (List.range m.rows).flatMap fun i => (List.range m.cols).map fun j => m.px i j

/-- Round to nearest and saturate to the uint8 range. -/
def satRound (x : ℚ) : ℕ := min 255 (max 0 ⌊x + 1/2⌋).toNat

/-- Smallest in-bounds pixel value (0 for an empty image). -/
def matLo (m : Mat) : ℕ := m.entries.foldr min (m.entries.headD 0)

/-- Largest in-bounds pixel value (0 for an empty image). -/
def matHi (m : Mat) : ℕ := m.entries.foldr max (m.entries.headD 0)

/-- `cv2.normalize(..., 0, 255, cv2.NORM_MINMAX)`: affinely stretch the value
range to [0,255]; OpenCV uses scale 0 (hence an all-zero output) when the
input range is degenerate. -/
def normalizeMinMax (m : Mat) : Mat :=
  if matHi m = matLo m then ⟨m.rows, m.cols, fun _ _ => 0⟩
  else ⟨m.rows, m.cols, fun i j =>
    satRound (((m.px i j : ℚ) - matLo m) * 255 / ((matHi m : ℚ) - (matLo m : ℚ)))⟩

/-- Cumulative histogram: number of pixels with value at most `v`. -/
def histCdf (m : Mat) (v : ℕ) : ℕ := m.entries.countP fun x => decide (x ≤ v)

/-- `cv2.equalizeHist`: map each pixel through the normalized cumulative
histogram.  OpenCV special-cases a constant image (all mass in one bin) and
returns it unchanged, which the guard reproduces. -/
def equalizeHist (m : Mat) : Mat :=
  if m.entries.all (fun x => x == m.entries.headD 0) then m
  else ⟨m.rows, m.cols, fun i j =>
    satRound ((((histCdf m (m.px i j) : ℚ) - (histCdf m (matLo m) : ℚ)) * 255) /
      ((m.entries.length : ℚ) - (histCdf m (matLo m) : ℚ)))⟩

/-- Clamp an integer index into [0, n-1] (border replication). -/
def clampIdx (n : ℕ) (i : ℤ) : ℕ := (max 0 (min i ((n : ℤ) - 1))).toNat

/-- Pixel access with replicated borders, as OpenCV filters use. -/
def Mat.atC (m : Mat) (i j : ℤ) : ℕ := m.px (clampIdx m.rows i) (clampIdx m.cols j)

/-- Sum of a list of rationals. -/
def sumQ (l : List ℚ) : ℚ := l.foldr (fun a b => a + b) 0

/-- Sum of a list of integers. -/
def sumZ (l : List ℤ) : ℤ := l.foldr (fun a b => a + b) 0

/-- OpenCV's fixed 7-tap Gaussian kernel (ksize 7, sigma 0). -/
def gauss7taps : List (ℤ × ℚ) :=
  [(-3, 4/128), (-2, 14/128), (-1, 28/128), (0, 36/128),
   (1, 28/128), (2, 14/128), (3, 4/128)]

/-- OpenCV's fixed 5-tap Gaussian kernel (ksize 5, sigma 0). -/
def gauss5taps : List (ℤ × ℚ) :=
  [(-2, 1/16), (-1, 4/16), (0, 6/16), (1, 4/16), (2, 1/16)]

/-- `cv2.GaussianBlur` with a separable kernel given by `taps`. -/
def gaussianBlur (taps : List (ℤ × ℚ)) (m : Mat) : Mat :=
  ⟨m.rows, m.cols, fun i j =>
    satRound (sumQ (taps.flatMap fun p => taps.map fun q =>
      p.2 * q.2 * (m.atC ((i : ℤ) + p.1) ((j : ℤ) + q.1) : ℚ)))⟩

/-- 3×3 Sobel x-derivative stencil as (row offset, col offset, weight). -/
def sobelXW : List (ℤ × ℤ × ℤ) :=
  [(-1, -1, -1), (-1, 0, 0), (-1, 1, 1),
   (0, -1, -2), (0, 0, 0), (0, 1, 2),
   (1, -1, -1), (1, 0, 0), (1, 1, 1)]

/-- 3×3 Sobel y-derivative stencil. -/
def sobelYW : List (ℤ × ℤ × ℤ) :=
  [(-1, -1, -1), (-1, 0, -2), (-1, 1, -1),
   (0, -1, 0), (0, 0, 0), (0, 1, 0),
   (1, -1, 1), (1, 0, 2), (1, 1, 1)]

/-- Apply a derivative stencil at a pixel. -/
def sobelAt (w : List (ℤ × ℤ × ℤ)) (m : Mat) (i j : ℕ) : ℤ :=
  sumZ (w.map fun t => t.2.2 * (m.atC ((i : ℤ) + t.1) ((j : ℤ) + t.2.1) : ℤ))

/-- L1 gradient magnitude, the default of `cv2.Canny`. -/
def gradMag (m : Mat) (i j : ℕ) : ℕ :=
  (sobelAt sobelXW m i j).natAbs + (sobelAt sobelYW m i j).natAbs

/-- Non-maximum suppression: the magnitude is not exceeded by the two
neighbours along the dominant gradient axis. -/
def localMax (m : Mat) (i j : ℕ) : Bool :=
  if (sobelAt sobelYW m i j).natAbs ≤ (sobelAt sobelXW m i j).natAbs then
    decide (gradMag m i (j + 1) ≤ gradMag m i j ∧ gradMag m i (j - 1) ≤ gradMag m i j)
  else
    decide (gradMag m (i + 1) j ≤ gradMag m i j ∧ gradMag m (i - 1) j ≤ gradMag m i j)

/-- A surviving pixel above the high hysteresis threshold. -/
def strongAt (m : Mat) (high : ℕ) (i j : ℕ) : Bool :=
  decide (high < gradMag m i j) && localMax m i j

/-- A surviving pixel above the low hysteresis threshold. -/
def weakAt (m : Mat) (low : ℕ) (i j : ℕ) : Bool :=
  decide (low < gradMag m i j) && localMax m i j

/-- A binary image (edge map). -/
structure BMat where
  rows : ℕ
  cols : ℕ
  bpx : ℕ → ℕ → Bool

/-- The eight neighbour offsets. -/
def neighbors8 : List (ℤ × ℤ) :=
  [(-1, -1), (-1, 0), (-1, 1), (0, -1), (0, 1), (1, -1), (1, 0), (1, 1)]

/-- One step of hysteresis: keep current edges and add weak pixels adjacent
to an edge. -/
def hystStep (weak : ℕ → ℕ → Bool) (e : ℕ → ℕ → Bool) : ℕ → ℕ → Bool :=
  fun i j => e i j || (weak i j && neighbors8.any fun d =>
    e ((i : ℤ) + d.1).toNat ((j : ℤ) + d.2).toNat)

/-- `cv2.Canny(img, low, high)`: double threshold on the suppressed Sobel
gradient magnitude, then hysteresis to a fixpoint (image-size many steps). -/
def canny (low high : ℕ) (m : Mat) : BMat :=
  ⟨m.rows, m.cols, (hystStep (weakAt m low))^[m.rows * m.cols] (strongAt m high)⟩

/-- Signed offset of index `a` from the centre of a k-wide element. -/
def centerOff (a k : ℕ) : ℤ := (a : ℤ) - ((k / 2 : ℕ) : ℤ)

/-- Offsets of a k×k rectangular structuring element, anchored at centre. -/
def rectOffsets (k : ℕ) : List (ℤ × ℤ) :=
  (List.range k).flatMap fun (a : ℕ) => (List.range k).map fun (b : ℕ) =>
    (centerOff a k, centerOff b k)

/-- Binary access with an out-of-bounds default. -/
def BMat.atB (b : BMat) (i j : ℤ) (dflt : Bool) : Bool :=
  if 0 ≤ i ∧ i < (b.rows : ℤ) ∧ 0 ≤ j ∧ j < (b.cols : ℤ) then
    b.bpx i.toNat j.toNat
  else dflt

/-- Morphological dilation by a k×k rectangle. -/
def dilate (k : ℕ) (b : BMat) : BMat :=
  ⟨b.rows, b.cols, fun i j => (rectOffsets k).any fun d =>
    b.atB ((i : ℤ) + d.1) ((j : ℤ) + d.2) false⟩

/-- Morphological erosion by a k×k rectangle. -/
def erode (k : ℕ) (b : BMat) : BMat :=
  ⟨b.rows, b.cols, fun i j => (rectOffsets k).all fun d =>
    b.atB ((i : ℤ) + d.1) ((j : ℤ) + d.2) true⟩

/-- `cv2.morphologyEx(..., cv2.MORPH_CLOSE, kernel)`: dilation then erosion. -/
def morphClose (k : ℕ) (b : BMat) : BMat := erode k (dilate k b)

/-- In-bounds positions carrying `true`, row-major. -/
def truePixels (b : BMat) : List (ℕ × ℕ) :=
  (List.range b.rows).flatMap fun i =>
    ((List.range b.cols).filter fun j => b.bpx i j).map fun j => (i, j)

/-- 8-adjacency of two positions. -/
def adj8 (p q : ℕ × ℕ) : Bool :=
  neighbors8.any fun d =>
    ((p.1 : ℤ) + d.1 == (q.1 : ℤ)) && ((p.2 : ℤ) + d.2 == (q.2 : ℤ))

/-- Expand a pixel set within `ts` by adjacency. -/
def growComp (ts s : List (ℕ × ℕ)) : List (ℕ × ℕ) :=
  ts.filter fun q => s.any fun p => (p == q) || adj8 p q

/-- The 8-connected component of `p` among the true pixels. -/
def component (b : BMat) (p : ℕ × ℕ) : List (ℕ × ℕ) :=
  (growComp (truePixels b))^[(truePixels b).length] [p]

/-- Row-major order on positions. -/
def pairLe (p q : ℕ × ℕ) : Bool :=
  decide (p.1 < q.1) || ((p.1 == q.1) && decide (p.2 ≤ q.2))

/-- First minimum of a list of positions. -/
def minPair (l : List (ℕ × ℕ)) (dflt : ℕ × ℕ) : ℕ × ℕ :=
  l.foldr (fun a b => if pairLe a b then a else b) dflt

/-- `cv2.findContours(..., cv2.RETR_EXTERNAL, ...)`: one candidate change
region per connected component of the edge map, listed once (at its
row-major-least pixel). -/
def findContours (b : BMat) : List (List (ℕ × ℕ)) :=
  (truePixels b).filterMap fun p =>
    if minPair (component b p) p == p then some (component b p) else none

/-! ### An all-zero difference image produces no contours -/

theorem satRound_zero : satRound 0 = 0 := by
  have h1 : ⌊(0 : ℚ) + 1/2⌋ = 0 := by norm_num
  rw [satRound, h1]
  rfl

theorem absdiff_self_Z (m : Mat) : Zmat (absdiff m m) := by
  intro i j
  simp [absdiff]

theorem entries_zero (m : Mat) (h : Zmat m) : ∀ x ∈ m.entries, x = 0 := by
  intro x hx
  rw [Mat.entries, List.mem_flatMap] at hx
  obtain ⟨i, _, hx⟩ := hx
  rw [List.mem_map] at hx
  obtain ⟨j, _, rfl⟩ := hx
  exact h i j

theorem headD_zero (m : Mat) (h : Zmat m) : m.entries.headD 0 = 0 := by
  cases hme : m.entries with
  | nil => rfl
  | cons x t =>
    have hx : x = 0 := entries_zero m h x (by rw [hme]; exact List.mem_cons_self x t)
    simp [hx]

theorem foldr_min_zero (l : List ℕ) (h : ∀ x ∈ l, x = 0) : l.foldr min 0 = 0 := by
  induction l with
  | nil => rfl
  | cons x t ih =>
    rw [List.foldr_cons, h x (List.mem_cons_self x t),
      ih fun y hy => h y (List.mem_cons_of_mem x hy)]
    simp

theorem foldr_max_zero (l : List ℕ) (h : ∀ x ∈ l, x = 0) : l.foldr max 0 = 0 := by
  induction l with
  | nil => rfl
  | cons x t ih =>
    rw [List.foldr_cons, h x (List.mem_cons_self x t),
      ih fun y hy => h y (List.mem_cons_of_mem x hy)]
    simp

theorem matLo_zero (m : Mat) (h : Zmat m) : matLo m = 0 := by
  rw [matLo, headD_zero m h]
  exact foldr_min_zero _ (entries_zero m h)

theorem matHi_zero (m : Mat) (h : Zmat m) : matHi m = 0 := by
  rw [matHi, headD_zero m h]
  exact foldr_max_zero _ (entries_zero m h)

theorem normalizeMinMax_Z (m : Mat) (h : Zmat m) : Zmat (normalizeMinMax m) := by
  rw [normalizeMinMax, if_pos (by rw [matHi_zero m h, matLo_zero m h])]
  intro i j
  rfl

theorem equalizeHist_Z (m : Mat) (h : Zmat m) : Zmat (equalizeHist m) := by
  rw [equalizeHist, if_pos ?_]
  · exact h
  · rw [List.all_eq_true]
    intro x hx
    rw [entries_zero m h x hx, headD_zero m h]
    rfl

theorem atC_zero (m : Mat) (h : Zmat m) : ∀ i j : ℤ, m.atC i j = 0 := by
  intro i j
  exact h _ _

theorem sumQ_zero (l : List ℚ) (h : ∀ x ∈ l, x = 0) : sumQ l = 0 := by
  induction l with
  | nil => rfl
  | cons x t ih =>
    rw [sumQ, List.foldr_cons, h x (List.mem_cons_self x t)]
    rw [sumQ] at ih
    rw [ih fun y hy => h y (List.mem_cons_of_mem x hy), add_zero]

theorem sumZ_zero (l : List ℤ) (h : ∀ x ∈ l, x = 0) : sumZ l = 0 := by
  induction l with
  | nil => rfl
  | cons x t ih =>
    rw [sumZ, List.foldr_cons, h x (List.mem_cons_self x t)]
    rw [sumZ] at ih
    rw [ih fun y hy => h y (List.mem_cons_of_mem x hy), add_zero]

theorem gaussianBlur_Z (taps : List (ℤ × ℚ)) (m : Mat) (h : Zmat m) :
    Zmat (gaussianBlur taps m) := by
  intro i j
  show satRound (sumQ _) = 0
  rw [sumQ_zero, satRound_zero]
  intro x hx
  rw [List.mem_flatMap] at hx
  obtain ⟨p, _, hx⟩ := hx
  rw [List.mem_map] at hx
  obtain ⟨q, _, rfl⟩ := hx
  rw [atC_zero m h]
  simp

theorem sobelAt_zero (w : List (ℤ × ℤ × ℤ)) (m : Mat) (i j : ℕ) (h : Zmat m) :
    sobelAt w m i j = 0 := by
  rw [sobelAt, sumZ_zero]
  intro x hx
  rw [List.mem_map] at hx
  obtain ⟨t, _, rfl⟩ := hx
  rw [atC_zero m h]
  simp

theorem gradMag_zero (m : Mat) (i j : ℕ) (h : Zmat m) : gradMag m i j = 0 := by
  rw [gradMag, sobelAt_zero _ m i j h, sobelAt_zero _ m i j h]
  rfl

theorem strongAt_false (m : Mat) (high i j : ℕ) (h : Zmat m) :
    strongAt m high i j = false := by
  rw [strongAt, gradMag_zero m i j h]
  simp

theorem weakAt_false (m : Mat) (low i j : ℕ) (h : Zmat m) :
    weakAt m low i j = false := by
  rw [weakAt, gradMag_zero m i j h]
  simp

theorem hyst_iterate_false (weak e : ℕ → ℕ → Bool) (hw : ∀ i j, weak i j = false)
    (he : ∀ i j, e i j = false) : ∀ n i j, ((hystStep weak)^[n] e) i j = false := by
  intro n
  induction n with
  | zero => simpa using he
  | succ n ih =>
    intro i j
    rw [Function.iterate_succ_apply']
    show ((hystStep weak) ((hystStep weak)^[n] e)) i j = false
    rw [hystStep]
    rw [ih, hw]
    simp

theorem canny_allFalse (low high : ℕ) (m : Mat) (h : Zmat m) :
    ∀ i j, (canny low high m).bpx i j = false := by
  intro i j
  exact hyst_iterate_false _ _ (fun i j => weakAt_false m low i j h)
    (fun i j => strongAt_false m high i j h) _ i j

theorem zero_mem_rectOffsets (k : ℕ) (hk : 1 ≤ k) :
    ((0, 0) : ℤ × ℤ) ∈ rectOffsets k := by
  have h2 : k / 2 ∈ List.range k := List.mem_range.mpr (by omega)
  have h0 : centerOff (k / 2) k = 0 := by
    rw [centerOff]
    omega
  rw [rectOffsets, List.mem_flatMap]
  refine ⟨k / 2, h2, ?_⟩
  rw [List.mem_map]
  refine ⟨k / 2, h2, ?_⟩
  rw [h0]

/-- Every in-bounds pixel of the binary image is false. -/
def AllFalseIn (b : BMat) : Prop := ∀ i j, i < b.rows → j < b.cols → b.bpx i j = false

theorem dilate_allFalse (k : ℕ) (b : BMat) (h : AllFalseIn b) :
    ∀ i j, (dilate k b).bpx i j = false := by
  intro i j
  show (rectOffsets k).any _ = false
  rw [List.any_eq_false]
  intro d _
  rw [BMat.atB]
  split
  · rename_i hin
    rw [Bool.not_eq_true]
    apply h <;> omega
  · simp

theorem morphClose_allFalseIn (k : ℕ) (b : BMat) (hk : 1 ≤ k) (h : AllFalseIn b) :
    AllFalseIn (morphClose k b) := by
  intro i j hi hj
  have hi2 : i < b.rows := hi
  have hj2 : j < b.cols := hj
  show (rectOffsets k).all _ = false
  rw [List.all_eq_false]
  refine ⟨(0, 0), zero_mem_rectOffsets k hk, ?_⟩
  have hcond : 0 ≤ (i : ℤ) + (0 : ℤ) ∧ (i : ℤ) + (0 : ℤ) < ((dilate k b).rows : ℤ) ∧
      0 ≤ (j : ℤ) + (0 : ℤ) ∧ (j : ℤ) + (0 : ℤ) < ((dilate k b).cols : ℤ) := by
    have hr : (dilate k b).rows = b.rows := rfl
    have hc : (dilate k b).cols = b.cols := rfl
    rw [hr, hc]
    refine ⟨by omega, by omega, by omega, by omega⟩
  rw [BMat.atB, if_pos hcond, dilate_allFalse k b h]
  simp

theorem truePixels_nil (b : BMat) (h : AllFalseIn b) : truePixels b = [] := by
  rw [truePixels, List.flatMap_eq_nil_iff]
  intro i hi
  rw [List.mem_range] at hi
  rw [List.map_eq_nil_iff, List.filter_eq_nil_iff]
  intro j hj
  rw [List.mem_range] at hj
  simp [h i j hi hj]

theorem findContours_nil (b : BMat) (h : AllFalseIn b) : findContours b = [] := by
  rw [findContours, truePixels_nil b h]
  rfl

/-! ## Pipelines of the detection variants -/

/-- External OpenCV collaborators, modelled as arbitrary deterministic
functions: `cv2.resize` to 500×500, CLAHE (clip 3.0, 8×8 tiles), BGR→gray
conversion, `cv2.contourArea` and `cv2.boundingRect` as per-contour
attribute extractors, and ORB keypoint description (empty list exactly when
`detectAndCompute` returns `des = None`). -/
structure CvExt where
  resize : Mat → Mat
  clahe : Mat → Mat
  gray : Mat → Mat
  areaOf : List (ℕ × ℕ) → ℚ
  rectWH : List (ℕ × ℕ) → ℕ × ℕ
  orb : Mat → List Desc

/-- Result of fetching and decoding one image source: the fetch can raise,
the bytes can fail to decode (`cv2.imdecode`/`cv2.imread` returning `None`),
or a decoded image is produced. -/
inductive Fetched where
  | fetchError : Fetched
  | decodeFail : Fetched
  | ok : Mat → Fetched

/-- Per-contour attributes read by the decisions: `cv2.contourArea` value
and `cv2.boundingRect` width and height. -/
structure ContourFeat where
  area : ℚ
  w : ℕ
  h : ℕ

/-- The `aspect_ratio` local of `detect_scratches` (scooterscratch.py 135):
`w / h if h != 0 else 0`. -/
def aspectOf (c : ContourFeat) : ℚ := if c.h ≠ 0 then (c.w : ℚ) / (c.h : ℚ) else 0

/-- Decision loop of `detect_scratches` (scooterscratch.py 130-140):
`if 5 < area < 1500 and 0.5 < aspect_ratio < 10.0`. -/
def scratchDecision (cs : List ContourFeat) : Bool :=
  cs.any fun c =>
    decide (5 < c.area ∧ c.area < 1500 ∧ 1/2 < aspectOf c ∧ aspectOf c < 10)

/-- Modelled from the spec: the decision claim C1 describes, with both band
edges inclusive ("area 5 gives true, area 1500 gives true"); written only to
be compared against the source decision `scratchDecision`. -/
def specInclusiveBandDecision (cs : List ContourFeat) : Bool :=
  cs.any fun c =>
    decide (5 ≤ c.area ∧ c.area ≤ 1500 ∧ 1/2 ≤ aspectOf c ∧ aspectOf c ≤ 10)

/-- Net writes performed against the storage (Cloudinary upload) and
persistence (UPDATE of the stored reference) collaborators during one
column iteration of an update loop. -/
structure WriteLog where
  uploads : ℕ
  dbUpdates : ℕ
  deriving DecidableEq

/-- Decision of ishu.py line 153: any contour of area strictly above 10. -/
def ishuAreaDecision (areas : List ℚ) : Bool := areas.any fun a => decide (10 < a)

/-- Decision of scratchfabric.py 156-161: any contour of area above 30. -/
def fabricAreaDecision (areas : List ℚ) : Bool := areas.any fun a => decide (30 < a)

namespace Ishu

/-- Core of `detect_scratches_or_differences` (ishu.py 128-160) once both
images are decoded: resize to 500×500, CLAHE both, absolute difference,
7×7 Gaussian blur, Canny(50, 200), 3×3 closing, external contours, then the
`area > 10` decision. -/
def detectCore (ext : CvExt) (n e : Mat) : Bool :=
  ishuAreaDecision ((findContours (morphClose 3 (canny 50 200 (gaussianBlur gauss7taps
    (absdiff (ext.clahe (ext.resize n)) (ext.clahe (ext.resize e))))))).map ext.areaOf)

/-- ishu.py 107-164.  Both sources are fetched from URLs inside a
try/except whose handler returns False; a `None` decode of the new image
returns False (lines 114-116); a `None` decode of the existing image
returns True (lines 123-125). -/
def detect_scratches_or_differences (ext : CvExt) (newF existF : Fetched) : Bool :=
  match newF with
  | .fetchError => false
  | .decodeFail => false
  | .ok n =>
    match existF with
    | .fetchError => false
    | .decodeFail => true
    | .ok e => detectCore ext n e

/-- One column iteration of `update_images_for_segment` (ishu.py 171-205):
the S3→Cloudinary upload happens first, before any comparison (line 173);
on upload failure the column is skipped; otherwise each matching car with a
stored reference is compared and its reference updated exactly when the
verdict is true.  A car is `none` (no stored reference, loop body skipped)
or `some verdict`. -/
def update_images_column (uploadOk : Bool) (cars : List (Option Bool)) : WriteLog :=
  if uploadOk then ⟨1, cars.countP fun c => c == some true⟩ else ⟨0, 0⟩

end Ishu

namespace Scooterscratch

/-- `detect_scratches` (scooterscratch.py 98-150): resize both grayscale
images to 500×500, absolute difference, min-max normalization, histogram
equalization, Canny(10, 100), closing with a 1×1 kernel, external contours,
then the strict band decision on area and bounding-box aspect ratio. -/
def detect_scratches (ext : CvExt) (n e : Mat) : Bool :=
  scratchDecision ((findContours (morphClose 1 (canny 10 100 (equalizeHist
    (normalizeMinMax (absdiff (ext.resize n) (ext.resize e))))))).map fun c =>
      ⟨ext.areaOf c, (ext.rectWH c).1, (ext.rectWH c).2⟩)

/-- One (column, scooter) iteration of `process_images`
(scooterscratch.py 186-214) with both images decoded: the ORB feature gate
runs first; `not is_similar` short-circuits with "Images are different, no
update made" — the contour stage never runs; when similar,
`detect_scratches` produces the verdict.  Returns (contour stage ran,
update performed). -/
def process_pair (ext : CvExt) (n e : Mat) : Bool × Bool :=
  if compare_images_for_similarity (ext.orb n) (ext.orb e) then
    (true, detect_scratches ext n e)
  else (false, false)

/-- One column iteration of `process_images` (scooterscratch.py 165-218):
the upload to Cloudinary happens first (line 167), before any comparison;
the reference update happens exactly for the scooters whose verdict is
true. -/
def process_column (uploadOk : Bool) (scooters : List (Option Bool)) : WriteLog :=
  if uploadOk then ⟨1, scooters.countP fun c => c == some true⟩ else ⟨0, 0⟩

end Scooterscratch

namespace Scratchfabric

/-- Core of `detect_scratches_or_differences` (scratchfabric.py 123-169):
resize, CLAHE, absolute difference, 7×7 Gaussian blur, Canny(50, 200),
3×3 closing, external contours, then the `area > 30` decision. -/
def detectCore (ext : CvExt) (n e : Mat) : Bool :=
  fabricAreaDecision ((findContours (morphClose 3 (canny 50 200 (gaussianBlur gauss7taps
    (absdiff (ext.clahe (ext.resize n)) (ext.clahe (ext.resize e))))))).map ext.areaOf)

/-- scratchfabric.py 106-173.  The new image is read from a local path
(`cv2.imread`, so only decode can fail, modelled as `Option Mat`); `None`
returns False (lines 111-113).  The existing image is fetched from a URL
inside the try/except returning False; its `None` decode returns True
(lines 119-121). -/
def detect_scratches_or_differences (ext : CvExt) (newI : Option Mat)
    (existF : Fetched) : Bool :=
  match newI with
  | none => false
  | some n =>
    match existF with
    | .fetchError => false
    | .decodeFail => true
    | .ok e => detectCore ext n e

/-- One column iteration of `update_images_for_segment`
(scratchfabric.py 180-210): the Cloudinary upload is attempted only after a
true verdict (line 189), and the reference update only after a successful
upload. -/
def update_images_column (uploadOk : Bool) (cars : List (Option Bool)) : WriteLog :=
  ⟨if uploadOk then cars.countP (fun c => c == some true) else 0,
   if uploadOk then cars.countP (fun c => c == some true) else 0⟩

end Scratchfabric

namespace Scooterscratchfabric

/-- Core of `detect_scratches_or_differences` (scooterscratchfabric.py
97-115): resize both color images, convert to grayscale, absolute
difference, min-max normalization, 5×5 Gaussian blur, Canny(20, 100),
external contours (no closing in this variant), `area > 10` decision. -/
def detectCore (ext : CvExt) (n e : Mat) : Bool :=
  ishuAreaDecision ((findContours (canny 20 100 (gaussianBlur gauss5taps
    (normalizeMinMax (absdiff (ext.gray (ext.resize n))
      (ext.gray (ext.resize e))))))).map ext.areaOf)

/-- scooterscratchfabric.py 83-118.  The new image comes from `cv2.imread`
(`None` → False, lines 86-88); the existing image is fetched inside the
try/except returning False; its `None` decode returns True (lines 93-95). -/
def detect_scratches_or_differences (ext : CvExt) (newI : Option Mat)
    (existF : Fetched) : Bool :=
  match newI with
  | none => false
  | some n =>
    match existF with
    | .fetchError => false
    | .decodeFail => true
    | .ok e => detectCore ext n e

end Scooterscratchfabric

/-! ## Conditional insert of vehicle rows (ika.py, john.py, scooterfabric.py) -/

/-- A row of the vehicle table: the key columns checked by the duplicate
SELECT, with all remaining columns abstracted into `payload`. -/
structure CarRow where
  segment_id : ℕ
  segment_name : ℕ
  model_type : ℕ
  payload : ℕ
  deriving DecidableEq

/-- The WHERE clause of the duplicate check (ika.py 53-57). -/
def keyMatches (a b : CarRow) : Bool :=
  (a.segment_id == b.segment_id) && (a.segment_name == b.segment_name) &&
    (a.model_type == b.model_type)

/-- Outcome reported by the insert operation. -/
inductive InsertOutcome where
  | alreadyExists : InsertOutcome
  | inserted : InsertOutcome
  deriving DecidableEq

/-- `insert_car_details` (ika.py 51-75, john.py 71-95) and the inline check
of `upload_scooter` (scooterfabric.py 99-121): SELECT rows matching the
(segment_id, segment_name, model_type) triple; if one exists, return the
"already exists" outcome without inserting; otherwise INSERT and commit. -/
def insert_car_details (t : List CarRow) (r : CarRow) : List CarRow × InsertOutcome :=
  if t.any fun row => keyMatches row r then (t, .alreadyExists)
  else (t ++ [r], .inserted)

/-- No two rows of the table share the key triple. -/
def UniqueKeys (t : List CarRow) : Prop :=
  List.Pairwise (fun a b => keyMatches a b = false) t

/-! ## Helper lemmas for the claim theorems -/

theorem compare_empty (des1 des2 : List Desc) (h : des1 = [] ∨ des2 = []) :
    compare_images_for_similarity des1 des2 = false := by
  have hc : (des1.isEmpty || des2.isEmpty) = true := by
    rcases h with h | h <;> rw [h] <;> simp
  rw [compare_images_for_similarity, hc]
  simp

theorem compare_eq_decide (des1 des2 : List Desc) (h1 : des1 ≠ []) (h2 : des2 ≠ []) :
    compare_images_for_similarity des1 des2 =
      decide (similarity_score des1 des2 > 7/10) := by
  have hc : (des1.isEmpty || des2.isEmpty) = false := by
    cases des1 with
    | nil => exact absurd rfl h1
    | cons x t =>
      cases des2 with
      | nil => exact absurd rfl h2
      | cons y s => rfl
  rw [compare_images_for_similarity, hc, similarity_score]
  simp

/-- Feature-gate reflexivity: identical nonempty descriptor sets with
pairwise-distinct equal-length descriptors are judged similar. -/
theorem compare_self_of_distinct (d : List Desc) (hne : d ≠ [])
    (hdist : ∀ i j, i < d.length → j < d.length → i ≠ j → d.getD i d0 ≠ d.getD j d0)
    (hlen : ∀ a ∈ d, ∀ b ∈ d, a.length = b.length) :
    compare_images_for_similarity d d = true := by
  rw [compare_eq_decide d d hne hne, decide_eq_true_eq, similarity_score,
    matchCount_self d hdist hlen, max_self]
  have h0 : (d.length : ℚ) ≠ 0 := by
    rw [Nat.cast_ne_zero]
    intro h
    exact hne (List.length_eq_zero.mp h)
  rw [div_self h0]
  norm_num

/-- Contour-pipeline reflexivity for the ishu variant: an identical pair
yields a zero difference image, hence no edges, no contours, no scratch. -/
theorem ishu_core_self (ext : CvExt) (img : Mat) :
    Ishu.detectCore ext img img = false := by
  have hz := absdiff_self_Z (ext.clahe (ext.resize img))
  have hb := gaussianBlur_Z gauss7taps _ hz
  have hc := canny_allFalse 50 200 _ hb
  have hm := morphClose_allFalseIn 3 _ (by omega) fun i j _ _ => hc i j
  rw [Ishu.detectCore, findContours_nil _ hm]
  rfl

/-- Contour-pipeline reflexivity for `detect_scratches` of scooterscratch:
the zero difference image is preserved by min-max normalization and
histogram equalization, so no contour is produced. -/
theorem scooterscratch_detect_self (ext : CvExt) (img : Mat) :
    Scooterscratch.detect_scratches ext img img = false := by
  have hz := absdiff_self_Z (ext.resize img)
  have hn := normalizeMinMax_Z _ hz
  have he := equalizeHist_Z _ hn
  have hc := canny_allFalse 10 100 _ he
  have hm := morphClose_allFalseIn 1 _ (by omega) fun i j _ _ => hc i j
  rw [Scooterscratch.detect_scratches, findContours_nil _ hm]
  rfl

/-- Contour-pipeline reflexivity for the scratchfabric variant. -/
theorem scratchfabric_core_self (ext : CvExt) (img : Mat) :
    Scratchfabric.detectCore ext img img = false := by
  have hz := absdiff_self_Z (ext.clahe (ext.resize img))
  have hb := gaussianBlur_Z gauss7taps _ hz
  have hc := canny_allFalse 50 200 _ hb
  have hm := morphClose_allFalseIn 3 _ (by omega) fun i j _ _ => hc i j
  rw [Scratchfabric.detectCore, findContours_nil _ hm]
  rfl

/-- Concrete collaborator record used for closed evaluations. -/
def cvId : CvExt :=
  ⟨id, id, id, fun c => (c.length : ℚ), fun _ => (1, 1), fun _ => []⟩

/-- Collaborator record whose ORB stage finds one keypoint per image. -/
def cvOne : CvExt :=
  ⟨id, id, id, fun c => (c.length : ℚ), fun _ => (1, 1), fun _ => [[true]]⟩

/-- Collaborator record whose ORB stage distinguishes 1-row images (one
keypoint) from taller ones (two keypoints, one descriptor disjoint). -/
def cvTwo : CvExt :=
  ⟨id, id, id, fun c => (c.length : ℚ), fun _ => (1, 1),
    fun m => if m.rows = 1 then [[true, true]] else [[true, true], [false, false]]⟩

/-- A concrete 1×1 image. -/
def m0 : Mat := ⟨1, 1, fun _ _ => 0⟩

/-- A concrete 2×1 image. -/
def mB : Mat := ⟨2, 1, fun _ _ => 0⟩

/-! ## Claim theorems -/

/-- C1: the claim as stated fails on the code: `detect_scratches` uses
strict comparisons (`5 < area < 1500 and 0.5 < aspect_ratio < 10.0`,
scooterscratch.py 138), so a contour of area exactly 5 with aspect ratio 1
yields changed = false, while the claim's inclusive-band decision yields
true at the same input. -/
theorem C1_counterexample :
    scratchDecision [⟨5, 1, 1⟩] = false ∧
      specInclusiveBandDecision [⟨5, 1, 1⟩] = true := by
  constructor
  · norm_num [scratchDecision, aspectOf]
  · norm_num [specInclusiveBandDecision, aspectOf]

/-- C1 (amended): the verdict is changed = true iff some contour's area lies
STRICTLY inside the (min, max) band and its aspect ratio strictly inside
(0.5, 10): with min=5, max=1500, area 3 gives false, area 5 gives false,
area 6 gives true, area 1500 gives false, area 1501 gives false; the ishu
variant instead retains any contour of area strictly above 10 with no upper
bound and no aspect-ratio band. -/
theorem C1_amended :
    (∀ cs : List ContourFeat, scratchDecision cs = true ↔
      ∃ c ∈ cs, 5 < c.area ∧ c.area < 1500 ∧ 1/2 < aspectOf c ∧ aspectOf c < 10) ∧
    scratchDecision [⟨3, 1, 1⟩] = false ∧
    scratchDecision [⟨5, 1, 1⟩] = false ∧
    scratchDecision [⟨6, 1, 1⟩] = true ∧
    scratchDecision [⟨1500, 1, 1⟩] = false ∧
    scratchDecision [⟨1501, 1, 1⟩] = false ∧
    (∀ areas : List ℚ, ishuAreaDecision areas = true ↔ ∃ a ∈ areas, 10 < a) := by
  refine ⟨?_, by norm_num [scratchDecision, aspectOf], by norm_num [scratchDecision, aspectOf],
    by norm_num [scratchDecision, aspectOf], by norm_num [scratchDecision, aspectOf],
    by norm_num [scratchDecision, aspectOf], ?_⟩
  · intro cs
    rw [scratchDecision, List.any_eq_true]
    simp only [decide_eq_true_eq]
  · intro areas
    rw [ishuAreaDecision, List.any_eq_true]
    simp only [decide_eq_true_eq]

/-- C2: the claim fails on the code: when the new image's bytes fail to
decode, ishu.py 114-116 returns the plain boolean False — the
changed = false verdict — and so do scratchfabric.py 111-113 and
scooterscratchfabric.py 86-88; no error value distinguishable from a
boolean verdict is surfaced. -/
theorem C2_counterexample :
    Ishu.detect_scratches_or_differences cvId .decodeFail (.ok m0) = false ∧
    Scratchfabric.detect_scratches_or_differences cvId none (.ok m0) = false ∧
    Scooterscratchfabric.detect_scratches_or_differences cvId none (.ok m0) = false :=
  ⟨rfl, rfl, rfl⟩

/-- C2 (amended): on a decode failure of the new image every variant
returns the boolean verdict changed = false — silently "unchanged",
indistinguishable from a genuine no-change verdict — for every collaborator
choice and every state of the existing source. -/
theorem C2_amended : ∀ (ext : CvExt) (f : Fetched),
    Ishu.detect_scratches_or_differences ext .decodeFail f = false ∧
    Scratchfabric.detect_scratches_or_differences ext none f = false ∧
    Scooterscratchfabric.detect_scratches_or_differences ext none f = false :=
  fun _ _ => ⟨rfl, rfl, rfl⟩

/-- C3: confirmed: when the new image decodes successfully and the existing
image's bytes fail to decode, all three variants return changed = true
(ishu.py 123-125, scratchfabric.py 119-121, scooterscratchfabric.py
93-95). -/
theorem C3_theorem : ∀ (ext : CvExt) (n : Mat),
    Ishu.detect_scratches_or_differences ext (.ok n) .decodeFail = true ∧
    Scratchfabric.detect_scratches_or_differences ext (some n) .decodeFail = true ∧
    Scooterscratchfabric.detect_scratches_or_differences ext (some n) .decodeFail = true :=
  fun _ _ => ⟨rfl, rfl, rfl⟩

/-- C4: the claim fails on the code: a fetch failure of the existing image
is caught by the try/except and swallowed into the plain boolean False
(ishu.py 162-164, scooterscratchfabric.py 116-118) — the exact value of the
"no change" verdict, not a tagged result distinct from both verdicts. -/
theorem C4_counterexample :
    Ishu.detect_scratches_or_differences cvId (.ok m0) .fetchError = false ∧
    Scooterscratchfabric.detect_scratches_or_differences cvId (some m0) .fetchError = false :=
  ⟨rfl, rfl⟩

/-- C4 (amended): on a fetch failure the decision policy indeed never
executes, but the failure is swallowed into the boolean changed = false by
the except handlers of every variant, so the caller cannot tell "pipeline
could not run" apart from "pipeline ran and found no change". -/
theorem C4_amended : ∀ (ext : CvExt) (n : Mat) (f : Fetched),
    Ishu.detect_scratches_or_differences ext .fetchError f = false ∧
    Ishu.detect_scratches_or_differences ext (.ok n) .fetchError = false ∧
    Scratchfabric.detect_scratches_or_differences ext (some n) .fetchError = false ∧
    Scooterscratchfabric.detect_scratches_or_differences ext (some n) .fetchError = false :=
  fun _ _ _ => ⟨rfl, rfl, rfl, rfl⟩

/-- C5: the claim fails on the code: with a similarity ratio of 1/2 — below
the 0.7 cutoff — `process_images` does NOT proceed to the contour
comparison; it stops with "Images are different, no update made"
(scooterscratch.py 190-191), so a below-cutoff ratio prevents rather than
triggers the full comparison. -/
theorem C5_counterexample :
    similarity_score (cvTwo.orb m0) (cvTwo.orb mB) < 7/10 ∧
    Scooterscratch.process_pair cvTwo m0 mB = (false, false) := by
  have ho1 : cvTwo.orb m0 = [[true, true]] := rfl
  have ho2 : cvTwo.orb mB = [[true, true], [false, false]] := rfl
  have hmc : matchCount [[true, true]] [[true, true], [false, false]] = 1 := by decide
  have hsim : similarity_score [[true, true]] [[true, true], [false, false]] < 7/10 := by
    rw [similarity_score, hmc]
    norm_num
  constructor
  · rw [ho1, ho2]
    exact hsim
  · rw [Scooterscratch.process_pair, ho1, ho2,
      compare_eq_decide _ _ (by decide) (by decide),
      decide_eq_false (not_lt.mpr hsim.le)]
    rfl

/-- C5 (amended): the feature gate runs first but in the opposite direction
of the claim: only a similarity ratio strictly ABOVE the 0.7 cutoff lets
the contour stage run and produce the authoritative verdict; a ratio at or
below the cutoff (and likewise a zero-keypoint image) stops the pipeline
with no contour comparison and no update. -/
theorem C5_amended : ∀ (ext : CvExt) (n e : Mat),
    (ext.orb n ≠ [] → ext.orb e ≠ [] →
      (similarity_score (ext.orb n) (ext.orb e) > 7/10 →
        Scooterscratch.process_pair ext n e =
          (true, Scooterscratch.detect_scratches ext n e)) ∧
      (similarity_score (ext.orb n) (ext.orb e) ≤ 7/10 →
        Scooterscratch.process_pair ext n e = (false, false))) ∧
    (ext.orb n = [] ∨ ext.orb e = [] →
      Scooterscratch.process_pair ext n e = (false, false)) := by
  intro ext n e
  constructor
  · intro h1 h2
    constructor
    · intro hgt
      rw [Scooterscratch.process_pair, compare_eq_decide _ _ h1 h2,
        decide_eq_true hgt]
      rfl
    · intro hle
      rw [Scooterscratch.process_pair, compare_eq_decide _ _ h1 h2,
        decide_eq_false (not_lt.mpr hle)]
      rfl
  · intro h
    rw [Scooterscratch.process_pair, compare_empty _ _ h]
    rfl

/-- C5 witness: a similar identical pair passes the gate into the contour
stage, whose (reflexively false) verdict is authoritative. -/
theorem C5_witness : Scooterscratch.process_pair cvOne m0 m0 = (true, false) := by
  have ho : cvOne.orb m0 = [[true]] := rfl
  have hmc : matchCount [[true]] [[true]] = 1 := by decide
  have hsim : similarity_score (cvOne.orb m0) (cvOne.orb m0) > 7/10 := by
    rw [ho, similarity_score, hmc]
    norm_num
  have h := ((C5_amended cvOne m0 m0).1 (by decide) (by decide)).1 hsim
  rw [h, scooterscratch_detect_self cvOne m0]

/-- C6: confirmed: for nonempty descriptor sets the gate's verdict is
exactly "similarity ratio above 0.7" where the ratio is the cross-checked
match count divided by the larger keypoint count (scooterscratch.py 89-90),
and a `None` descriptor set on either side yields False — treated as "not
similar" rather than as a pass (lines 83-84). -/
theorem C6_theorem : ∀ des1 des2 : List Desc,
    (des1 ≠ [] → des2 ≠ [] →
      (compare_images_for_similarity des1 des2 = true ↔
        similarity_score des1 des2 > 7/10) ∧
      similarity_score des1 des2 =
        (matchCount des1 des2 : ℚ) / (max des1.length des2.length : ℚ)) ∧
    (des1 = [] ∨ des2 = [] → compare_images_for_similarity des1 des2 = false) := by
  intro des1 des2
  refine ⟨fun h1 h2 => ⟨?_, rfl⟩, compare_empty des1 des2⟩
  rw [compare_eq_decide des1 des2 h1 h2, decide_eq_true_eq]

/-- C6 witness at concrete descriptor sets. -/
theorem C6_witness :
    (compare_images_for_similarity [[true]] [[true]] = true ↔
      similarity_score [[true]] [[true]] > 7/10) ∧
    compare_images_for_similarity [] [[true]] = false :=
  ⟨((C6_theorem [[true]] [[true]]).1 (by decide) (by decide)).1,
    (C6_theorem [] [[true]]).2 (Or.inl rfl)⟩

/-- C7: the claim fails for the feature strategy: an identical pair of
images with zero ORB keypoints (a featureless image gives `des = None`,
modelled as the empty descriptor list) is judged NOT similar by the gate
(scooterscratch.py 83-84 returns False), i.e. the feature strategy's
verdict on an identical pair is "changed", not changed = false. -/
theorem C7_counterexample : compare_images_for_similarity [] [] = false := rfl

/-- C7 (amended): reflexivity holds for the contour strategy: on an
identical pair, for every image and every collaborator choice, both the
ishu pipeline and `detect_scratches` return changed = false (the absolute
difference of an image with itself is zero, so no contour is retained);
the feature strategy reports "similar" (changed = false) provided the image
yields at least one keypoint and its descriptors are pairwise distinct and
of equal length. -/
theorem C7_amended :
    (∀ (ext : CvExt) (img : Mat),
      Ishu.detect_scratches_or_differences ext (.ok img) (.ok img) = false ∧
      Scooterscratch.detect_scratches ext img img = false ∧
      Scratchfabric.detect_scratches_or_differences ext (some img) (.ok img) = false) ∧
    (∀ d : List Desc, d ≠ [] →
      (∀ i j, i < d.length → j < d.length → i ≠ j → d.getD i d0 ≠ d.getD j d0) →
      (∀ a ∈ d, ∀ b ∈ d, a.length = b.length) →
      compare_images_for_similarity d d = true) := by
  constructor
  · intro ext img
    exact ⟨ishu_core_self ext img, scooterscratch_detect_self ext img,
      scratchfabric_core_self ext img⟩
  · exact compare_self_of_distinct

/-- C7 witness: a singleton descriptor set passes the gate reflexivity. -/
theorem C7_witness : compare_images_for_similarity [[true]] [[true]] = true :=
  C7_amended.2 [[true]]
    (by decide)
    (by
      intro i j hi hj hne
      simp only [List.length_singleton] at hi hj
      omega)
    (by
      intro a ha b hb
      rw [List.mem_singleton] at ha hb
      rw [ha, hb])

/-- C8: confirmed: the cross-checked match count is symmetric in the two
descriptor sets (mutual-nearest pairs are the same pairs viewed from either
side), and so is the larger keypoint count, hence the similarity ratio is
symmetric — exactly, not merely within floating-point tolerance. -/
theorem C8_theorem (des1 des2 : List Desc) (h1 : des1 ≠ []) (h2 : des2 ≠ []) :
    matchCount des1 des2 = matchCount des2 des1 ∧
    similarity_score des1 des2 = similarity_score des2 des1 := by
  refine ⟨matchCount_comm des1 des2 h1 h2, ?_⟩
  rw [similarity_score, similarity_score, matchCount_comm des1 des2 h1 h2,
    max_comm (des1.length : ℚ) (des2.length : ℚ)]

/-- C8 witness at concrete descriptor sets. -/
theorem C8_witness :
    matchCount [[true]] [[false], [true]] = matchCount [[false], [true]] [[true]] ∧
    similarity_score [[true]] [[false], [true]] =
      similarity_score [[false], [true]] [[true]] :=
  C8_theorem [[true]] [[false], [true]] (by decide) (by decide)

/-- C9: the claim fails on the code: in the ishu variant the Cloudinary
upload is performed before any comparison (ishu.py 173, and likewise
scooterscratch.py 167), so with one car whose verdict is changed = false a
storage write still occurs: one upload and zero reference updates. -/
theorem C9_counterexample :
    Ishu.update_images_column true [some false] = ⟨1, 0⟩ := rfl

/-- C9 (amended): the database reference update happens exactly for the
cars with a positive verdict in every variant, and in scratchfabric the
storage upload too happens only on a positive verdict; but in the ishu and
scooterscratch variants the storage upload precedes the comparison and is
performed once per column regardless of the verdicts. -/
theorem C9_amended : ∀ (uploadOk : Bool) (cars : List (Option Bool)),
    ((Ishu.update_images_column uploadOk cars).dbUpdates =
      if uploadOk then cars.countP (fun c => c == some true) else 0) ∧
    ((Scooterscratch.process_column uploadOk cars).dbUpdates =
      if uploadOk then cars.countP (fun c => c == some true) else 0) ∧
    (Scratchfabric.update_images_column uploadOk cars =
      ⟨if uploadOk then cars.countP (fun c => c == some true) else 0,
        if uploadOk then cars.countP (fun c => c == some true) else 0⟩) ∧
    ((∀ c ∈ cars, c ≠ some true) →
      (Ishu.update_images_column uploadOk cars).dbUpdates = 0 ∧
      Scratchfabric.update_images_column uploadOk cars = ⟨0, 0⟩) ∧
    (Ishu.update_images_column true cars).uploads = 1 ∧
    (Scooterscratch.process_column true cars).uploads = 1 := by
  intro uploadOk cars
  have hz : (∀ c ∈ cars, c ≠ some true) →
      (cars.countP fun c => c == some true) = 0 := by
    intro h
    rw [List.countP_eq_zero]
    intro c hc
    simp [h c hc]
  refine ⟨?_, ?_, rfl, fun h => ?_, rfl, rfl⟩
  · cases uploadOk <;> rfl
  · cases uploadOk <;> rfl
  · constructor
    · cases uploadOk <;> simp [Ishu.update_images_column, hz h]
    · cases uploadOk <;> simp [Scratchfabric.update_images_column, hz h]

/-- C9 witness: a column with no positive verdict performs no reference
update in ishu and no write at all in scratchfabric. -/
theorem C9_witness :
    (Ishu.update_images_column true [none, some false]).dbUpdates = 0 ∧
    Scratchfabric.update_images_column true [none, some false] = ⟨0, 0⟩ :=
  (C9_amended true [none, some false]).2.2.2.1 (by decide)

/-- C10: confirmed: when a row with the same (segment_id, segment_name,
model_type) triple exists, `insert_car_details` performs no INSERT, leaves
the table unchanged and reports "already exists"; a row is appended exactly
when no such triple exists, and every insert preserves uniqueness of the
triple. -/
theorem C10_theorem : ∀ (t : List CarRow) (r : CarRow),
    ((t.any fun row => keyMatches row r) = true →
      insert_car_details t r = (t, .alreadyExists)) ∧
    ((t.any fun row => keyMatches row r) = false →
      insert_car_details t r = (t ++ [r], .inserted)) ∧
    (UniqueKeys t → UniqueKeys (insert_car_details t r).1) := by
  intro t r
  refine ⟨fun h => ?_, fun h => ?_, fun h => ?_⟩
  · rw [insert_car_details, if_pos h]
  · rw [insert_car_details, if_neg (by simp [h])]
  · by_cases hc : (t.any fun row => keyMatches row r) = true
    · rw [insert_car_details, if_pos hc]
      exact h
    · rw [insert_car_details, if_neg hc]
      show UniqueKeys (t ++ [r])
      rw [UniqueKeys, List.pairwise_append]
      refine ⟨h, List.pairwise_singleton _ _, ?_⟩
      intro a ha b hb
      rw [List.mem_singleton] at hb
      subst hb
      rw [Bool.not_eq_true] at hc
      rw [List.any_eq_false] at hc
      have := hc a ha
      simpa using this

/-- C10 witness: a duplicate key is rejected, a fresh key is appended, and
uniqueness is preserved. -/
theorem C10_witness :
    insert_car_details [⟨1, 2, 3, 0⟩] ⟨1, 2, 3, 7⟩ = ([⟨1, 2, 3, 0⟩], .alreadyExists) ∧
    insert_car_details [⟨1, 2, 3, 0⟩] ⟨1, 2, 4, 0⟩ =
      ([⟨1, 2, 3, 0⟩] ++ [⟨1, 2, 4, 0⟩], .inserted) :=
  ⟨(C10_theorem [⟨1, 2, 3, 0⟩] ⟨1, 2, 3, 7⟩).1 (by decide),
    (C10_theorem [⟨1, 2, 3, 0⟩] ⟨1, 2, 4, 0⟩).2.1 (by decide)⟩

end CarRepo
